import Mathlib

/-!
# Verification of the session-state core of `claude-code-marketing`

Shallow embedding of the three-layer session-state subsystem (continuity
ledger, handoff store, archival memory, brand registry, session coordinator)
of the repository, translated from the TypeScript sources:

* `src/core/state/continuity-ledger.ts`
* `src/core/state/handoffs.ts`
* `src/core/session/session-manager.ts`
* `src/core/data/input-parser.ts` (brand CRUD)
* `src/core/storage.ts` (id generation, record store)
* the archival-memory module (`memory.ts`) and history manager

Modelling conventions:

* The YAML record store is modelled as total functions `key → Option record`;
  `writeYaml` always succeeds (I/O failure is out of scope), `readYaml` of a
  missing key is `none`.
* JavaScript ISO timestamps are modelled by their epoch-millisecond value
  (`Nat`); date strings (`YYYY-MM-DD`) and month strings (`YYYY-MM`) are
  carried separately in a `Clock` record passed explicitly to every operation
  that calls `getTimestamp` / `getDateString` / `getCurrentYearMonth`.
* JavaScript string truthiness (`""` and `undefined` are falsy) is modelled
  explicitly by `jsTruthyStr` on `Option String`.
* In-place mutation of module-level singletons (`currentLedger`,
  `currentSession`, `sessionState`) becomes explicit state passing.
-/

/-- JS truthiness of an optional string: `undefined` and `""` are falsy. -/
def jsTruthyStr : Option String → Bool
  | none => false
  | some s => !(s == "")

/-- JS `a || b` on optional strings (`a` wins unless falsy). -/
def jsOrStr (a b : Option String) : Option String :=
  match a with
  | none => b
  | some s => if s == "" then b else some s

/-- JS `String.prototype.includes`: `needle` occurs as a contiguous substring
of `hay` (the empty needle always matches). -/
def jsIncludes (hay needle : String) : Bool :=
  hay.toList.tails.any (fun t => needle.toList.isPrefixOf t)

/-- Lowercasing used for all the case-insensitive comparisons in the source
(JS `toLowerCase`, modelled characterwise). -/
def lowerStr (s : String) : String :=
  (s.toList.map Char.toLower).asString

/-- Clock value passed to operations in place of the ambient `Date` object:
`ms` models `Date.now()` / `getTimestamp()`, `date` models `getDateString()`
(`YYYY-MM-DD`), `ym` models `getCurrentYearMonth()` (`YYYY-MM`). -/
structure Clock where
  ms : Nat
  date : String
  ym : String
deriving Repr, DecidableEq

/-- `storage.ts` helper: format a millisecond duration the way
`getSessionSummary` / `finishSession` do. -/
def durationString (ms : Nat) : String :=
  let minutes := ms / 60000
  if minutes < 60 then toString minutes ++ " min"
  else toString (minutes / 60) ++ "h " ++ toString (minutes % 60) ++ "m"

/-- Pointwise update of a function-modelled record store. -/
def updStore {β : Type} (st : String → Option β) (k : String) (v : Option β) :
    String → Option β :=
  fun k' => if k' = k then v else st k'

-- ============================================================
-- Continuity ledger (`src/core/state/continuity-ledger.ts`)
-- ============================================================

/-- `SessionTask` from `types`: task text, timestamp, optional result. -/
structure SessionTask where
  task : String
  timestamp : Nat
  result : Option String
deriving Repr, DecidableEq

/-- `ContinuityLedger` from `types`. -/
structure ContinuityLedger where
  brandId : String
  brandName : String
  started : Nat
  goal : Option String
  completed : List SessionTask
  inProgress : List SessionTask
  blockers : List String
  notes : List String
deriving Repr, DecidableEq

/-- The continuity-ledger module's state: the in-memory `currentLedger`
singleton plus the on-disk `session/continuity.yaml` record. -/
structure LedgerState where
  mem : Option ContinuityLedger
  disk : Option ContinuityLedger
deriving Repr, DecidableEq

/-- `getLedger()` = `currentLedger || loadLedger()`: returns the ledger if any
and the module state after `loadLedger`'s caching of a disk read. -/
def getLedgerLoad (st : LedgerState) : LedgerState × Option ContinuityLedger :=
  match st.mem with
  | some l => (st, some l)
  | none =>
    match st.disk with
    | some l => ({ st with mem := some l }, some l)
    | none => (st, none)

/-- The ledger `getLedger` would return (no caching side effect). -/
def ledgerView (st : LedgerState) : Option ContinuityLedger :=
  (getLedgerLoad st).2

/-- Mutate the current ledger and `saveLedger()` (write-through). -/
def saveLedgerAs (st : LedgerState) (l : ContinuityLedger) : LedgerState :=
  { st with mem := some l, disk := some l }

/-- `initLedger`: unconditionally installs a fresh ledger and saves it. -/
def initLedgerS (brandId brandName : String) (goal : Option String)
    (now : Clock) (_st : LedgerState) : LedgerState :=
  let l : ContinuityLedger :=
    { brandId, brandName, started := now.ms, goal,
      completed := [], inProgress := [], blockers := [], notes := [] }
  { mem := some l, disk := some l }

/-- `clearLedger`: drops the in-memory ledger and deletes the record. -/
def clearLedgerS (_st : LedgerState) : LedgerState :=
  { mem := none, disk := none }

/-- `addCompletedTask(task, result?)`: removes every case-insensitive match
from `inProgress`, appends a fresh completed task, saves. No-op when no
ledger exists. -/
def addCompletedTaskS (now : Clock) (task : String) (result : Option String)
    (st : LedgerState) : LedgerState :=
  match getLedgerLoad st with
  | (st', none) => st'
  | (st', some l) =>
    let sessionTask : SessionTask := { task, timestamp := now.ms, result }
    let l' := { l with
      inProgress := l.inProgress.filter
        (fun t => !(lowerStr t.task == lowerStr task)),
      completed := l.completed ++ [sessionTask] }
    saveLedgerAs st' l'

/-- `addInProgressTask(task)`: appends unless a case-insensitive match is
already in progress. -/
def addInProgressTaskS (now : Clock) (task : String) (st : LedgerState) :
    LedgerState :=
  match getLedgerLoad st with
  | (st', none) => st'
  | (st', some l) =>
    if l.inProgress.any (fun t => lowerStr t.task == lowerStr task) then st'
    else
      let sessionTask : SessionTask := { task, timestamp := now.ms, result := none }
      saveLedgerAs st' { l with inProgress := l.inProgress ++ [sessionTask] }

/-- Replace the first element satisfying `p` by its image under `f`,
returning the new element and the new list (models JS `findIndex` followed by
an in-place field assignment). -/
def updateFirst {α : Type} (p : α → Bool) (f : α → α) :
    List α → Option (α × List α)
  | [] => none
  | x :: xs =>
    if p x then some (f x, f x :: xs)
    else
      match updateFirst p f xs with
      | some (y, ys) => some (y, x :: ys)
      | none => none

/-- Remove the first element satisfying `p`, returning it and the remaining
list (models JS `findIndex` followed by `splice(i, 1)`). -/
def extractFirst {α : Type} (p : α → Bool) :
    List α → Option (α × List α)
  | [] => none
  | x :: xs =>
    if p x then some (x, xs)
    else
      match extractFirst p xs with
      | some (y, ys) => some (y, x :: ys)
      | none => none

/-- `updateTaskProgress(task, result)`: sets the `result` of the first
case-insensitive in-progress match in place; saves only when found. -/
def updateTaskProgressS (task result : String) (st : LedgerState) :
    LedgerState :=
  match getLedgerLoad st with
  | (st', none) => st'
  | (st', some l) =>
    match updateFirst (fun t => lowerStr t.task == lowerStr task)
        (fun t => { t with result := some result }) l.inProgress with
    | some (_, inProgress') => saveLedgerAs st' { l with inProgress := inProgress' }
    | none => st'

/-- `completeTask(task, result?)`: moves the first case-insensitive
in-progress match to `completed` (refreshing timestamp, `result ||` old
result); otherwise falls back to `addCompletedTask`. -/
def completeTaskS (now : Clock) (task : String) (result : Option String)
    (st : LedgerState) : LedgerState :=
  match getLedgerLoad st with
  | (st', none) => st'
  | (st', some l) =>
    match extractFirst (fun t => lowerStr t.task == lowerStr task)
        l.inProgress with
    | some (ct, rest) =>
      let ct' := { ct with result := jsOrStr result ct.result, timestamp := now.ms }
      saveLedgerAs st' { l with inProgress := rest, completed := l.completed ++ [ct'] }
    | none => addCompletedTaskS now task result st'

/-- `addBlocker(blocker)`: appends unless the exact string is already present
(JS `Array.prototype.includes`, case-sensitive). -/
def addBlockerS (blocker : String) (st : LedgerState) : LedgerState :=
  match getLedgerLoad st with
  | (st', none) => st'
  | (st', some l) =>
    if l.blockers.contains blocker then st'
    else saveLedgerAs st' { l with blockers := l.blockers ++ [blocker] }

/-- `removeBlocker(blocker)`: filters out every case-insensitive match. -/
def removeBlockerS (blocker : String) (st : LedgerState) : LedgerState :=
  match getLedgerLoad st with
  | (st', none) => st'
  | (st', some l) =>
    saveLedgerAs st'
      { l with blockers :=
          l.blockers.filter (fun b => !(lowerStr b == lowerStr blocker)) }

/-- `addLedgerNote(note)`: dedup on exact match. -/
def addLedgerNoteS (note : String) (st : LedgerState) : LedgerState :=
  match getLedgerLoad st with
  | (st', none) => st'
  | (st', some l) =>
    if l.notes.contains note then st'
    else saveLedgerAs st' { l with notes := l.notes ++ [note] }

/-- `setGoal(goal)`: overwrites the goal. -/
def setGoalS (goal : String) (st : LedgerState) : LedgerState :=
  match getLedgerLoad st with
  | (st', none) => st'
  | (st', some l) => saveLedgerAs st' { l with goal := some goal }

/-- `getSessionSummary()` payload (duration plus list counts). -/
structure SessionSummary where
  brandId : String
  brandName : String
  duration : String
  completed : Nat
  inProgress : Nat
  blockers : Nat
  notes : Nat
deriving Repr, DecidableEq

/-- `getSessionSummary()` on a present ledger at time `now`. -/
def sessionSummaryOf (l : ContinuityLedger) (now : Clock) : SessionSummary :=
  { brandId := l.brandId, brandName := l.brandName,
    duration := durationString (now.ms - l.started),
    completed := l.completed.length, inProgress := l.inProgress.length,
    blockers := l.blockers.length, notes := l.notes.length }

/-- `getSessionSummary()` including the `getLedger` load. -/
def getSessionSummaryS (now : Clock) (st : LedgerState) :
    LedgerState × Option SessionSummary :=
  match getLedgerLoad st with
  | (st', none) => (st', none)
  | (st', some l) => (st', some (sessionSummaryOf l now))

example :
    (addInProgressTaskS ⟨5, "d", "m"⟩ "X"
      (initLedgerS "b" "B" none ⟨0, "d", "m"⟩ ⟨none, none⟩)).mem =
    some { brandId := "b", brandName := "B", started := 0, goal := none,
           completed := [], inProgress := [⟨"X", 5, none⟩],
           blockers := [], notes := [] } := by decide

example :
    (completeTaskS ⟨9, "d", "m"⟩ "x" (some "done")
      (addInProgressTaskS ⟨5, "d", "m"⟩ "X"
        (initLedgerS "b" "B" none ⟨0, "d", "m"⟩ ⟨none, none⟩))).mem =
    some { brandId := "b", brandName := "B", started := 0, goal := none,
           completed := [⟨"X", 9, some "done"⟩], inProgress := [],
           blockers := [], notes := [] } := by decide

-- ============================================================
-- Handoffs (`src/core/state/handoffs.ts`)
-- ============================================================

/-- `HandoffTask` from `types`: task text plus the optional `result` /
`progress` / `reason` annotations used by the three `lastSession` lists. -/
structure HandoffTask where
  task : String
  result : Option String
  progress : Option String
  reason : Option String
deriving Repr, DecidableEq

/-- `PrioritizedTask` from `types`. -/
structure PrioritizedTask where
  priority : Int
  task : String
  context : Option String
deriving Repr, DecidableEq

/-- `Handoff.lastSession` from `types`. -/
structure LastSession where
  date : String
  duration : Option String
  completed : List HandoffTask
  inProgress : List HandoffTask
  deferred : List HandoffTask
deriving Repr, DecidableEq

/-- `Handoff` from `types`. -/
structure Handoff where
  brandId : String
  created : Nat
  lastSession : LastSession
  nextSteps : List PrioritizedTask
  resumePrompt : String
deriving Repr, DecidableEq

/-- The handoff store: one record per brand id
(`handoffs/<brand-id>.yaml`). -/
def HandoffStore : Type := String → Option Handoff

/-- `generateDefaultNextSteps(ledger)`: the imperative loop with its
`priority` counter, translated as folds threading the counter. -/
def generateDefaultNextSteps (ledger : ContinuityLedger) :
    List PrioritizedTask :=
  let afterInProgress :=
    ledger.inProgress.foldl
      (fun (acc : List PrioritizedTask × Int) t =>
        (acc.1 ++ [{ priority := acc.2, task := "Continue: " ++ t.task,
                     context := t.result }], acc.2 + 1))
      ([], 1)
  let afterBlockers :=
    ledger.blockers.foldl
      (fun (acc : List PrioritizedTask × Int) b =>
        (acc.1 ++ [{ priority := acc.2, task := "Resolve blocker: " ++ b,
                     context := none }], acc.2 + 1))
      afterInProgress
  let steps := afterBlockers.1
  if steps.length == 0 && jsTruthyStr ledger.goal then
    steps ++ [{ priority := 1,
                task := "Continue working on: " ++ ledger.goal.getD "",
                context := none }]
  else steps

/-- JS `arr.slice(-n)`: the last `n` elements. -/
def jsSliceLast {α : Type} (n : Nat) (l : List α) : List α :=
  l.drop (l.length - n)

/-- `generateResumePrompt(ledger, nextSteps)`. -/
def generateResumePrompt (ledger : ContinuityLedger)
    (nextSteps : List PrioritizedTask) : String :=
  let parts : List String := ["Working with " ++ ledger.brandName ++ "."]
  let parts := parts ++
    (if jsTruthyStr ledger.goal then ["Goal: " ++ ledger.goal.getD ""] else [])
  let parts := parts ++
    (if ledger.completed.length > 0 then
      ["Last session completed: " ++
        String.intercalate ", " ((jsSliceLast 3 ledger.completed).map (·.task))]
     else [])
  let parts := parts ++
    (if ledger.inProgress.length > 0 then
      ["In progress: " ++
        String.intercalate ", " (ledger.inProgress.map (·.task))]
     else [])
  let parts := parts ++
    (if ledger.blockers.length > 0 then
      ["Blockers: " ++ String.intercalate ", " ledger.blockers]
     else [])
  let parts := parts ++
    (if nextSteps.length > 0 then
      ["Suggested next: " ++
        String.intercalate "; " ((nextSteps.take 3).map (·.task))]
     else [])
  String.intercalate " " parts

/-- `createHandoff(nextSteps?, customResumePrompt?)`: builds a handoff from
the current ledger and writes it at the ledger's brand id; returns `none`
when no ledger exists. -/
def createHandoffS (nextSteps : Option (List PrioritizedTask))
    (customResumePrompt : Option String) (now : Clock)
    (ls : LedgerState) (hs : HandoffStore) :
    Option Handoff × LedgerState × HandoffStore :=
  match getLedgerLoad ls with
  | (ls', none) => (none, ls', hs)
  | (ls', some ledger) =>
    let summary := (getSessionSummaryS now ls').2
    let completed : List HandoffTask := ledger.completed.map
      (fun t => { task := t.task, result := t.result, progress := none, reason := none })
    let inProgress : List HandoffTask := ledger.inProgress.map
      (fun t => { task := t.task, result := none, progress := t.result, reason := none })
    let deferred : List HandoffTask := ledger.blockers.map
      (fun b => { task := b, result := none, progress := none,
                  reason := some "Blocked - needs resolution" })
    let steps := nextSteps.getD (generateDefaultNextSteps ledger)
    let resumePrompt := customResumePrompt.getD (generateResumePrompt ledger steps)
    let handoff : Handoff :=
      { brandId := ledger.brandId, created := now.ms,
        lastSession := { date := now.date, duration := summary.map (·.duration),
                         completed, inProgress, deferred },
        nextSteps := steps, resumePrompt }
    (some handoff, ls', updStore hs ledger.brandId (some handoff))

/-- `getHandoff(brandId)`. -/
def getHandoffS (brandId : String) (hs : HandoffStore) : Option Handoff :=
  hs brandId

/-- `hasHandoff(brandId)`. -/
def hasHandoffS (brandId : String) (hs : HandoffStore) : Bool :=
  (getHandoffS brandId hs).isSome

/-- `clearHandoff(brandId)`: deletes the brand's handoff record. -/
def clearHandoffS (brandId : String) (hs : HandoffStore) : HandoffStore :=
  updStore hs brandId none

/-- Append `pre ++ s` when the optional string is JS-truthy, else nothing
(the `if (x) out += ...` display idiom). -/
def optSuffix (pre : String) (o : Option String) : String :=
  if jsTruthyStr o then pre ++ o.getD "" else ""

/-- `formatHandoffDisplay(handoff)`. -/
def formatHandoffDisplay (handoff : Handoff) : String :=
  let header := "📋 RESUMING WORK: " ++ handoff.brandId ++ "\n\n" ++
    "━━━━━━━━━━━━━━━━━━━━━━━━━━━━━━━━━━━━\n" ++
    "Last session: " ++ handoff.lastSession.date ++
    (if jsTruthyStr handoff.lastSession.duration then
      " (" ++ handoff.lastSession.duration.getD "" ++ ")" else "") ++
    "\n━━━━━━━━━━━━━━━━━━━━━━━━━━━━━━━━━━━━\n\n"
  let completedPart :=
    if handoff.lastSession.completed.length > 0 then
      "✅ COMPLETED LAST SESSION:\n" ++
      String.join ((jsSliceLast 5 handoff.lastSession.completed).map
        (fun t => "• " ++ t.task ++ optSuffix " → " t.result ++ "\n")) ++ "\n"
    else ""
  let inProgressPart :=
    if handoff.lastSession.inProgress.length > 0 then
      "🔄 LEFT IN PROGRESS:\n" ++
      String.join (handoff.lastSession.inProgress.map
        (fun t => "• " ++ t.task ++ optSuffix " - " t.progress ++ "\n")) ++ "\n"
    else ""
  let deferredPart :=
    if handoff.lastSession.deferred.length > 0 then
      "⏸️ DEFERRED:\n" ++
      String.join (handoff.lastSession.deferred.map
        (fun t => "• " ++ t.task ++
          (if jsTruthyStr t.reason then " (" ++ t.reason.getD "" ++ ")" else "") ++
          "\n")) ++ "\n"
    else ""
  let nextStepsPart :=
    if handoff.nextSteps.length > 0 then
      "📌 SUGGESTED NEXT STEPS:\n" ++
      String.join (handoff.nextSteps.map
        (fun s => toString s.priority ++ ". " ++ s.task ++
          (if jsTruthyStr s.context then "\n   └─ " ++ s.context.getD "" else "") ++
          "\n")) ++ "\n"
    else ""
  header ++ completedPart ++ inProgressPart ++ deferredPart ++ nextStepsPart ++
    "━━━━━━━━━━━━━━━━━━━━━━━━━━━━━━━━━━━━\n" ++
    "💬 Resume: \"" ++ handoff.resumePrompt ++ "\"\n"

/-- `removeNextStep(brandId, taskIndex)`: with an in-range index, splices the
step out, renumbers priorities `1..n`, writes; otherwise returns the stored
handoff untouched without writing. `taskIndex` is an `Int` since JS callers
may pass negative indices. -/
def removeNextStepS (brandId : String) (taskIndex : Int) (hs : HandoffStore) :
    Option Handoff × HandoffStore :=
  match hs brandId with
  | none => (none, hs)
  | some handoff =>
    if 0 ≤ taskIndex ∧ taskIndex < handoff.nextSteps.length then
      let spliced := handoff.nextSteps.eraseIdx taskIndex.toNat
      let renumbered := spliced.mapIdx
        (fun idx step => { step with priority := (idx : Int) + 1 })
      let handoff' := { handoff with nextSteps := renumbered }
      (some handoff', updStore hs brandId (some handoff'))
    else (some handoff, hs)

-- ============================================================
-- Generic list lemmas shared by several claims
-- ============================================================

theorem mapIdx_congr_fun {α β : Type} :
    ∀ (l : List α) (f g : Nat → α → β), (∀ i x, f i x = g i x) →
    l.mapIdx f = l.mapIdx g := by
  intro l
  induction l with
  | nil => intro f g _; simp
  | cons x xs ih =>
    intro f g h
    rw [List.mapIdx_cons, List.mapIdx_cons, h 0 x,
      ih (fun i => f (i + 1)) (fun i => g (i + 1)) (fun i y => h (i + 1) y)]

/-- The `steps.push({priority: priority++, ...})` loop body, as a fold over
an accumulator-and-counter pair; `f` builds the pushed step from the counter
value. -/
theorem foldl_counter {α : Type} (f : Int → α → PrioritizedTask) :
    ∀ (xs : List α) (acc : List PrioritizedTask) (k : Int),
    xs.foldl (fun acc x => (acc.1 ++ [f acc.2 x], acc.2 + 1)) (acc, k) =
    (acc ++ xs.mapIdx (fun i x => f (k + i) x), k + xs.length) := by
  intro xs
  induction xs with
  | nil => intro acc k; simp
  | cons x xs ih =>
    intro acc k
    rw [List.foldl_cons, ih, List.mapIdx_cons, Prod.mk.injEq]
    refine ⟨?_, by rw [List.length_cons]; push_cast; ring⟩
    rw [List.append_assoc, List.singleton_append]
    have hhead : f k x = f (k + (0 : Nat)) x := by norm_num
    have htail :
        List.mapIdx (fun i y => f (k + 1 + (i : Int)) y) xs =
        List.mapIdx (fun i y => f (k + ((i : Nat) + 1 : Nat)) y) xs := by
      apply mapIdx_congr_fun
      intro i y
      congr 1
      push_cast
      ring
    rw [← hhead, ← htail]

theorem mapIdx_map_val {α β γ : Type} (g : β → γ) :
    ∀ (l : List α) (f : Nat → α → β),
    (l.mapIdx f).map g = l.mapIdx (fun i x => g (f i x)) := by
  intro l
  induction l with
  | nil => intro f; simp
  | cons x xs ih => intro f; rw [List.mapIdx_cons, List.map_cons, ih, List.mapIdx_cons]

theorem mapIdx_const {α β : Type} :
    ∀ (l : List α) (h : Nat → β),
    l.mapIdx (fun i _ => h i) = (List.range l.length).map h := by
  intro l
  induction l with
  | nil => intro h; simp
  | cons x xs ih =>
    intro h
    rw [List.mapIdx_cons, List.length_cons, List.range_succ_eq_map,
      List.map_cons, ih (fun i => h (i + 1))]
    congr 1
    simp [Function.comp]

-- ============================================================
-- C4: default next steps derived from the ledger
-- ============================================================

/-- C4: the default next steps derived by `createHandoff` are one
"Continue: ⟨task⟩" step per in-progress task with ascending priorities in
original order, then one "Resolve blocker: ⟨blocker⟩" step per blocker, and
— only when both lists are empty and a (non-empty) goal is set — exactly one
"Continue working on: ⟨goal⟩" step; an empty ledger with a goal therefore
yields that single step, and an empty ledger without a goal yields no
steps. -/
theorem C4_default_next_steps (l : ContinuityLedger) :
    generateDefaultNextSteps l =
      if l.inProgress = [] ∧ l.blockers = [] then
        (if jsTruthyStr l.goal then
          [{ priority := 1, task := "Continue working on: " ++ l.goal.getD "",
             context := none }]
         else [])
      else
        l.inProgress.mapIdx (fun i t =>
          { priority := (i : Int) + 1, task := "Continue: " ++ t.task,
            context := t.result }) ++
        l.blockers.mapIdx (fun i b =>
          { priority := (l.inProgress.length : Int) + (i : Int) + 1,
            task := "Resolve blocker: " ++ b, context := none }) := by
  have h1 := foldl_counter
    (fun p (t : SessionTask) =>
      ({ priority := p, task := "Continue: " ++ t.task,
         context := t.result } : PrioritizedTask)) l.inProgress [] 1
  have h2 := foldl_counter
    (fun p (b : String) =>
      ({ priority := p, task := "Resolve blocker: " ++ b,
         context := none } : PrioritizedTask)) l.blockers
    (l.inProgress.mapIdx (fun i t =>
      ({ priority := 1 + (i : Int), task := "Continue: " ++ t.task,
         context := t.result } : PrioritizedTask)))
    (1 + (l.inProgress.length : Int))
  simp only [generateDefaultNextSteps, h1, List.nil_append, h2]
  by_cases hA : l.inProgress = [] <;> by_cases hB : l.blockers = []
  · rw [hA, hB]
    cases hg : jsTruthyStr l.goal <;> simp [hg]
  · have hb : l.blockers.length ≠ 0 := fun h => hB (List.length_eq_zero.mp h)
    rw [hA]
    simp only [List.mapIdx_nil, List.nil_append, List.length_nil,
      List.length_mapIdx, Nat.cast_zero]
    rw [if_neg (by simp [hb]), if_neg (by simp [hB])]
    apply mapIdx_congr_fun
    intro i b
    simp only [PrioritizedTask.mk.injEq, and_true, true_and]
    omega
  · have ha : l.inProgress.length ≠ 0 := fun h => hA (List.length_eq_zero.mp h)
    rw [hB]
    simp only [List.mapIdx_nil, List.append_nil, List.length_mapIdx]
    rw [if_neg (by simp [ha]), if_neg (by simp [hA])]
    apply mapIdx_congr_fun
    intro i t
    simp only [PrioritizedTask.mk.injEq, and_true, true_and]
    omega
  · have ha : l.inProgress.length ≠ 0 := fun h => hA (List.length_eq_zero.mp h)
    rw [if_neg (by simp [List.length_mapIdx, ha]), if_neg (by simp [hA])]
    congr 1
    · apply mapIdx_congr_fun
      intro i t
      simp only [PrioritizedTask.mk.injEq, and_true, true_and]
      omega
    · apply mapIdx_congr_fun
      intro i b
      simp only [PrioritizedTask.mk.injEq, and_true, true_and, List.length_mapIdx]
      omega

/-- `mapIdx` with an index-independent function is `map`. -/
theorem mapIdx_const_fun {α β : Type} (g : α → β) :
    ∀ l : List α, l.mapIdx (fun _ x => g x) = l.map g := by
  intro l
  induction l with
  | nil => simp
  | cons x xs ih => rw [List.mapIdx_cons, List.map_cons, ih]

-- ============================================================
-- C10: removeNextStep is a no-op on out-of-range indices
-- ============================================================

/-- C10: for a stored handoff, `removeNextStep` with a negative or
too-large index returns the stored handoff unchanged and performs no write;
with an in-range index it removes exactly that step and renumbers the
remaining priorities sequentially from 1. -/
theorem C10_removeNextStep (hs : HandoffStore) (brandId : String) (h : Handoff)
    (idx : Int) (hst : hs brandId = some h) :
    ((idx < 0 ∨ (h.nextSteps.length : Int) ≤ idx) →
        removeNextStepS brandId idx hs = (some h, hs)) ∧
    (0 ≤ idx → idx < (h.nextSteps.length : Int) →
        ∃ h', removeNextStepS brandId idx hs =
            (some h', updStore hs brandId (some h')) ∧
          h'.nextSteps.map (fun s => s.task) =
            (h.nextSteps.eraseIdx idx.toNat).map (fun s => s.task) ∧
          h'.nextSteps.map (fun s => s.context) =
            (h.nextSteps.eraseIdx idx.toNat).map (fun s => s.context) ∧
          h'.nextSteps.map (fun s => s.priority) =
            (List.range (h.nextSteps.length - 1)).map (fun i : Nat => (i : Int) + 1)) := by
  constructor
  · intro hout
    have hc : ¬(0 ≤ idx ∧ idx < (h.nextSteps.length : Int)) := by
      rcases hout with h1 | h1 <;> omega
    simp [removeNextStepS, hst, hc]
  · intro h0 hlt
    have hc : 0 ≤ idx ∧ idx < (h.nextSteps.length : Int) := ⟨h0, hlt⟩
    refine ⟨{ h with nextSteps := ((h.nextSteps.eraseIdx idx.toNat).mapIdx (fun i s => { s with priority := (i : Int) + 1 })) }, ?_, ?_, ?_, ?_⟩
    · simp [removeNextStepS, hst, hc]
    · rw [mapIdx_map_val]
      exact mapIdx_const_fun (fun s : PrioritizedTask => s.task) _
    · rw [mapIdx_map_val]
      exact mapIdx_const_fun (fun s : PrioritizedTask => s.context) _
    · rw [mapIdx_map_val]
      have hlen : (h.nextSteps.eraseIdx idx.toNat).length = h.nextSteps.length - 1 := by
        rw [List.length_eraseIdx]
        have : idx.toNat < h.nextSteps.length := by omega
        simp [this]
      rw [show (fun (i : Nat) (s : PrioritizedTask) =>
            ({ s with priority := (i : Int) + 1 } : PrioritizedTask).priority) =
          (fun (i : Nat) (_ : PrioritizedTask) => (i : Int) + 1) from rfl,
        mapIdx_const, hlen]

/-- Sample fixture: a handoff with two next steps, stored for brand
"acme". -/
def sampleHandoff : Handoff :=
  { brandId := "acme", created := 0,
    lastSession := { date := "2026-01-01", duration := none,
                     completed := [], inProgress := [], deferred := [] },
    nextSteps := [{ priority := 1, task := "draft post", context := none },
                  { priority := 2, task := "publish", context := none }],
    resumePrompt := "r" }

/-- Sample fixture: a handoff store holding only `sampleHandoff`. -/
def sampleHandoffStore : HandoffStore :=
  updStore (fun _ => none) "acme" (some sampleHandoff)

/-- Witness for C10 at a concrete store, handoff and index. -/
theorem C10_removeNextStep_witness :
    sampleHandoffStore "acme" = some sampleHandoff ∧
    ((((1 : Int) < 0 ∨ (sampleHandoff.nextSteps.length : Int) ≤ 1) →
        removeNextStepS "acme" 1 sampleHandoffStore =
          (some sampleHandoff, sampleHandoffStore)) ∧
     ((0 : Int) ≤ 1 → (1 : Int) < (sampleHandoff.nextSteps.length : Int) →
        ∃ h', removeNextStepS "acme" 1 sampleHandoffStore =
            (some h', updStore sampleHandoffStore "acme" (some h')) ∧
          h'.nextSteps.map (fun s => s.task) =
            (sampleHandoff.nextSteps.eraseIdx (1 : Int).toNat).map (fun s => s.task) ∧
          h'.nextSteps.map (fun s => s.context) =
            (sampleHandoff.nextSteps.eraseIdx (1 : Int).toNat).map (fun s => s.context) ∧
          h'.nextSteps.map (fun s => s.priority) =
            (List.range (sampleHandoff.nextSteps.length - 1)).map
              (fun i : Nat => (i : Int) + 1))) :=
  ⟨rfl, C10_removeNextStep sampleHandoffStore "acme" sampleHandoff 1 rfl⟩

-- ============================================================
-- C9: ledger mutators are silent no-ops in the absent state
-- ============================================================

/-- The absent ledger state: no in-memory ledger, no persisted record. -/
def absentLedgerState : LedgerState := { mem := none, disk := none }

/-- C9: every mutating continuity-ledger operation called with no in-memory
ledger and no persisted record returns normally (it is a total function
here, there is no error outcome) and leaves both the in-memory ledger and
the on-disk record unchanged. -/
theorem C9_absent_ops_noop (now : Clock) (task blocker note goal newResult : String)
    (result : Option String) :
    addInProgressTaskS now task absentLedgerState = absentLedgerState ∧
    addCompletedTaskS now task result absentLedgerState = absentLedgerState ∧
    completeTaskS now task result absentLedgerState = absentLedgerState ∧
    updateTaskProgressS task newResult absentLedgerState = absentLedgerState ∧
    addBlockerS blocker absentLedgerState = absentLedgerState ∧
    removeBlockerS blocker absentLedgerState = absentLedgerState ∧
    addLedgerNoteS note absentLedgerState = absentLedgerState ∧
    setGoalS goal absentLedgerState = absentLedgerState :=
  ⟨rfl, rfl, rfl, rfl, rfl, rfl, rfl, rfl⟩

-- ============================================================
-- C5: blocker add/remove semantics
-- ============================================================

/-- C5 counterexample: after `initLedger` and `addBlocker "foo"`,
`addBlocker "FOO"` — which differs from the existing blocker only in case —
does NOT leave the list unchanged: `addBlocker` deduplicates by exact string
equality, so the blockers become `["foo", "FOO"]`. -/
theorem C5_counterexample :
    (addBlockerS "FOO" (addBlockerS "foo"
        (initLedgerS "b" "B" none ⟨0, "d", "m"⟩ absentLedgerState))).mem.map
      (fun l => l.blockers) = some ["foo", "FOO"] ∧
    (addBlockerS "foo"
        (initLedgerS "b" "B" none ⟨0, "d", "m"⟩ absentLedgerState)).mem.map
      (fun l => l.blockers) = some ["foo"] :=
  ⟨rfl, rfl⟩

/-- C5 (amended): `addBlocker` appends unless the exact same string is
already present (case-sensitive dedup — a blocker differing only in case is
added), while `removeBlocker` removes every blocker matching the given text
case-insensitively. -/
theorem C5_blocker_semantics (st : LedgerState) (l : ContinuityLedger)
    (b : String) (hmem : st.mem = some l) :
    (addBlockerS b st).mem =
      some { l with blockers :=
        if l.blockers.contains b then l.blockers else l.blockers ++ [b] } ∧
    (removeBlockerS b st).mem =
      some { l with blockers :=
        l.blockers.filter (fun x => !(lowerStr x == lowerStr b)) } := by
  cases st with
  | mk mem disk =>
    simp only at hmem
    subst hmem
    constructor
    · by_cases hc : b ∈ l.blockers <;>
        simp [addBlockerS, getLedgerLoad, saveLedgerAs, hc]
    · simp [removeBlockerS, getLedgerLoad, saveLedgerAs]

/-- Witness for C5 at a concrete state with one blocker. -/
theorem C5_blocker_semantics_witness :
    (addBlockerS "foo"
        (initLedgerS "b" "B" none ⟨0, "d", "m"⟩ absentLedgerState)).mem =
      some { brandId := "b", brandName := "B", started := 0, goal := none,
             completed := [], inProgress := [], blockers := ["foo"],
             notes := [] } ∧
    ((addBlockerS "FOO" (addBlockerS "foo"
        (initLedgerS "b" "B" none ⟨0, "d", "m"⟩ absentLedgerState))).mem =
      some { brandId := "b", brandName := "B", started := 0, goal := none,
             completed := [], inProgress := [], blockers := ["foo", "FOO"],
             notes := [] } ∧
     (removeBlockerS "FOO" (addBlockerS "foo"
        (initLedgerS "b" "B" none ⟨0, "d", "m"⟩ absentLedgerState))).mem =
      some { brandId := "b", brandName := "B", started := 0, goal := none,
             completed := [], inProgress := [], blockers := [],
             notes := [] }) :=
  ⟨rfl, C5_blocker_semantics
    (addBlockerS "foo" (initLedgerS "b" "B" none ⟨0, "d", "m"⟩ absentLedgerState))
    { brandId := "b", brandName := "B", started := 0, goal := none,
      completed := [], inProgress := [], blockers := ["foo"], notes := [] }
    "FOO" rfl⟩

-- ============================================================
-- C2: completed/in-progress interaction
-- ============================================================

/-- C2 counterexample: starting from `initLedger`, the operation sequence
`addCompletedTask "x"` then `addInProgressTask "x"` leaves the task text
"x" in the completed list and the in-progress list at the same time —
`addInProgressTask` checks only the in-progress list for duplicates. -/
theorem C2_counterexample :
    (addInProgressTaskS ⟨2, "d", "m"⟩ "x"
      (addCompletedTaskS ⟨1, "d", "m"⟩ "x" none
        (initLedgerS "b" "B" none ⟨0, "d", "m"⟩ absentLedgerState))).mem.map
      (fun l => (l.completed.map (fun t => t.task),
                 l.inProgress.map (fun t => t.task))) =
    some (["x"], ["x"]) := rfl

/-- The case-insensitive dedup keys of a task list. -/
def lowerTasks (ts : List SessionTask) : List String :=
  ts.map (fun t => lowerStr t.task)

theorem extractFirst_found {α : Type} (p : α → Bool) :
    ∀ (l : List α) (x : α) (rest : List α),
      extractFirst p l = some (x, rest) → p x = true := by
  intro l
  induction l with
  | nil => intro x rest h; exact absurd h (by simp [extractFirst])
  | cons a as ih =>
    intro x rest h
    by_cases hpa : p a = true
    · rw [extractFirst, if_pos hpa] at h
      simp only [Option.some.injEq, Prod.mk.injEq] at h
      obtain ⟨rfl, rfl⟩ := h
      exact hpa
    · rw [extractFirst, if_neg hpa] at h
      rcases hE : extractFirst p as with _ | ⟨y, ys⟩ <;> rw [hE] at h
      · exact absurd h (by simp)
      · simp only [Option.some.injEq, Prod.mk.injEq] at h
        obtain ⟨rfl, rfl⟩ := h
        exact ih y ys hE

theorem extractFirst_no_more {α β : Type} [DecidableEq β] (g : α → β) (v : β) :
    ∀ (l : List α) (x : α) (rest : List α),
      (l.map g).Nodup →
      extractFirst (fun a => g a == v) l = some (x, rest) →
      ∀ e ∈ rest, ¬ g e = v := by
  intro l
  induction l with
  | nil => intro x rest _ h; exact absurd h (by simp [extractFirst])
  | cons a as ih =>
    intro x rest hnd h
    by_cases hpa : (g a == v) = true
    · rw [extractFirst, if_pos hpa] at h
      simp only [Option.some.injEq, Prod.mk.injEq] at h
      obtain ⟨rfl, rfl⟩ := h
      intro e he hev
      have hga : g a = v := beq_iff_eq.mp hpa
      have : g a ∈ as.map g := by
        rw [hga, ← hev]
        exact List.mem_map_of_mem g he
      exact (List.nodup_cons.mp hnd).1 this
    · rw [extractFirst, if_neg hpa] at h
      rcases hE : extractFirst (fun a => g a == v) as with _ | ⟨y, ys⟩ <;>
        rw [hE] at h
      · exact absurd h (by simp)
      · simp only [Option.some.injEq, Prod.mk.injEq] at h
        obtain ⟨rfl, rfl⟩ := h
        intro e he hev
        rcases List.mem_cons.mp he with rfl | hey
        · exact hpa (beq_iff_eq.mpr hev)
        · exact ih y ys (List.nodup_cons.mp hnd).2 hE e hey hev

theorem extractFirst_rest_sublist {α : Type} (p : α → Bool) :
    ∀ (l : List α) (x : α) (rest : List α),
      extractFirst p l = some (x, rest) → rest.Sublist l := by
  intro l
  induction l with
  | nil => intro x rest h; exact absurd h (by simp [extractFirst])
  | cons a as ih =>
    intro x rest h
    by_cases hpa : p a = true
    · rw [extractFirst, if_pos hpa] at h
      simp only [Option.some.injEq, Prod.mk.injEq] at h
      obtain ⟨rfl, rfl⟩ := h
      exact List.sublist_cons_self a as
    · rw [extractFirst, if_neg hpa] at h
      rcases hE : extractFirst p as with _ | ⟨y, ys⟩ <;> rw [hE] at h
      · exact absurd h (by simp)
      · simp only [Option.some.injEq, Prod.mk.injEq] at h
        obtain ⟨rfl, rfl⟩ := h
        exact (ih y ys hE).cons₂ a

theorem updateFirst_map_key {α β : Type} (g : α → β) (f : α → α)
    (hf : ∀ x, g (f x) = g x) (p : α → Bool) :
    ∀ (l : List α) (y : α) (l' : List α),
      updateFirst p f l = some (y, l') → l'.map g = l.map g := by
  intro l
  induction l with
  | nil => intro y l' h; exact absurd h (by simp [updateFirst])
  | cons a as ih =>
    intro y l' h
    by_cases hpa : p a = true
    · rw [updateFirst, if_pos hpa] at h
      simp only [Option.some.injEq, Prod.mk.injEq] at h
      obtain ⟨rfl, rfl⟩ := h
      simp [hf]
    · rw [updateFirst, if_neg hpa] at h
      rcases hE : updateFirst p f as with _ | ⟨z, zs⟩ <;> rw [hE] at h
      · exact absurd h (by simp)
      · simp only [Option.some.injEq, Prod.mk.injEq] at h
        obtain ⟨rfl, rfl⟩ := h
        simp [ih z zs hE]

/-- Ledger states reachable by running the module's operations starting
from some `initLedger` call. -/
inductive ReachableLedger : LedgerState → Prop where
  | init (brandId brandName : String) (goal : Option String) (now : Clock)
      (st : LedgerState) :
      ReachableLedger (initLedgerS brandId brandName goal now st)
  | completedAdd (now : Clock) (task : String) (result : Option String)
      (st : LedgerState) : ReachableLedger st →
      ReachableLedger (addCompletedTaskS now task result st)
  | inProgressAdd (now : Clock) (task : String) (st : LedgerState) :
      ReachableLedger st → ReachableLedger (addInProgressTaskS now task st)
  | progressUpdate (task result : String) (st : LedgerState) :
      ReachableLedger st → ReachableLedger (updateTaskProgressS task result st)
  | taskComplete (now : Clock) (task : String) (result : Option String)
      (st : LedgerState) : ReachableLedger st →
      ReachableLedger (completeTaskS now task result st)
  | blockerAdd (b : String) (st : LedgerState) :
      ReachableLedger st → ReachableLedger (addBlockerS b st)
  | blockerRemove (b : String) (st : LedgerState) :
      ReachableLedger st → ReachableLedger (removeBlockerS b st)
  | ledgerNoteAdd (n : String) (st : LedgerState) :
      ReachableLedger st → ReachableLedger (addLedgerNoteS n st)
  | goalSet (g : String) (st : LedgerState) :
      ReachableLedger st → ReachableLedger (setGoalS g st)
  | cleared (st : LedgerState) :
      ReachableLedger st → ReachableLedger (clearLedgerS st)

/-- Module invariant: the disk record never outlives the in-memory ledger,
and the in-progress list has pairwise-distinct case-insensitive keys. -/
def LedgerInv (st : LedgerState) : Prop :=
  (st.mem = none → st.disk = none) ∧
  ∀ l, st.mem = some l → (lowerTasks l.inProgress).Nodup

theorem LedgerInv_save (st : LedgerState) (l : ContinuityLedger)
    (h : (lowerTasks l.inProgress).Nodup) : LedgerInv (saveLedgerAs st l) := by
  refine ⟨by simp [saveLedgerAs], ?_⟩
  intro l' hl'
  simp only [saveLedgerAs, Option.some.injEq] at hl'
  subst hl'
  exact h

theorem LedgerInv_absent : LedgerInv absentLedgerState :=
  ⟨fun _ => rfl, fun l hl => by exact absurd hl (by simp [absentLedgerState])⟩

theorem reachable_ledger_inv : ∀ st, ReachableLedger st → LedgerInv st := by
  intro st h
  induction h with
  | init bid bn goal now st0 =>
    refine ⟨by simp [initLedgerS], ?_⟩
    intro l hl
    simp only [initLedgerS, Option.some.injEq] at hl
    subst hl
    simp [lowerTasks]
  | completedAdd now task result st0 _ ih =>
    obtain ⟨mem, disk⟩ := st0
    cases mem with
    | none =>
      have hd : disk = none := ih.1 rfl
      subst hd
      exact ih
    | some l =>
      have hnd := ih.2 l rfl
      simp only [addCompletedTaskS, getLedgerLoad]
      refine LedgerInv_save _ _ ?_
      exact hnd.sublist (List.Sublist.map _ (List.filter_sublist l.inProgress))
  | inProgressAdd now task st0 _ ih =>
    obtain ⟨mem, disk⟩ := st0
    cases mem with
    | none =>
      have hd : disk = none := ih.1 rfl
      subst hd
      exact ih
    | some l =>
      have hnd := ih.2 l rfl
      by_cases hany :
          l.inProgress.any (fun t => lowerStr t.task == lowerStr task) = true
      · simpa [addInProgressTaskS, getLedgerLoad, hany] using ih
      · have hnotmem : lowerStr task ∉ lowerTasks l.inProgress := by
          intro hmem
          apply hany
          rw [List.any_eq_true]
          simp only [lowerTasks, List.mem_map] at hmem
          obtain ⟨t, ht, hts⟩ := hmem
          exact ⟨t, ht, by simp [hts]⟩
        simp only [addInProgressTaskS, getLedgerLoad, hany]
        rw [if_neg (by simp [hany])]
        refine LedgerInv_save _ _ ?_
        simp only [lowerTasks, List.map_append, List.map_cons, List.map_nil]
        rw [List.nodup_append]
        refine ⟨hnd, List.nodup_singleton _, ?_⟩
        intro a ha hb
        simp only [List.mem_singleton] at hb
        subst hb
        exact hnotmem ha
  | progressUpdate task result st0 _ ih =>
    obtain ⟨mem, disk⟩ := st0
    cases mem with
    | none =>
      have hd : disk = none := ih.1 rfl
      subst hd
      exact ih
    | some l =>
      have hnd := ih.2 l rfl
      rcases hU : updateFirst (fun t => lowerStr t.task == lowerStr task)
          (fun t => { t with result := some result }) l.inProgress with
        _ | ⟨y, inP⟩
      · simpa [updateTaskProgressS, getLedgerLoad, hU] using ih
      · simp only [updateTaskProgressS, getLedgerLoad, hU]
        refine LedgerInv_save _ _ ?_
        have := updateFirst_map_key (fun t => lowerStr t.task)
          (fun t => { t with result := some result }) (fun _ => rfl)
          (fun t => lowerStr t.task == lowerStr task) l.inProgress y inP hU
        simpa [lowerTasks, this] using hnd
  | taskComplete now task result st0 _ ih =>
    obtain ⟨mem, disk⟩ := st0
    cases mem with
    | none =>
      have hd : disk = none := ih.1 rfl
      subst hd
      exact ih
    | some l =>
      have hnd := ih.2 l rfl
      rcases hE : extractFirst (fun t => lowerStr t.task == lowerStr task)
          l.inProgress with _ | ⟨ct, rest⟩
      · -- falls through to addCompletedTask on the same state
        simp only [completeTaskS, getLedgerLoad, hE, addCompletedTaskS]
        refine LedgerInv_save _ _ ?_
        exact hnd.sublist (List.Sublist.map _ (List.filter_sublist l.inProgress))
      · simp only [completeTaskS, getLedgerLoad, hE]
        refine LedgerInv_save _ _ ?_
        exact hnd.sublist
          (List.Sublist.map _ (extractFirst_rest_sublist _ l.inProgress ct rest hE))
  | blockerAdd b st0 _ ih =>
    obtain ⟨mem, disk⟩ := st0
    cases mem with
    | none =>
      have hd : disk = none := ih.1 rfl
      subst hd
      exact ih
    | some l =>
      have hnd := ih.2 l rfl
      by_cases hc : b ∈ l.blockers
      · simpa [addBlockerS, getLedgerLoad, hc] using ih
      · simp only [addBlockerS, getLedgerLoad]
        rw [if_neg (by simp [hc])]
        exact LedgerInv_save _ _ hnd
  | blockerRemove b st0 _ ih =>
    obtain ⟨mem, disk⟩ := st0
    cases mem with
    | none =>
      have hd : disk = none := ih.1 rfl
      subst hd
      exact ih
    | some l =>
      simp only [removeBlockerS, getLedgerLoad]
      exact LedgerInv_save _ _ (ih.2 l rfl)
  | ledgerNoteAdd n st0 _ ih =>
    obtain ⟨mem, disk⟩ := st0
    cases mem with
    | none =>
      have hd : disk = none := ih.1 rfl
      subst hd
      exact ih
    | some l =>
      by_cases hc : n ∈ l.notes
      · simpa [addLedgerNoteS, getLedgerLoad, hc] using ih
      · simp only [addLedgerNoteS, getLedgerLoad]
        rw [if_neg (by simp [hc])]
        exact LedgerInv_save _ _ (ih.2 l rfl)
  | goalSet g st0 _ ih =>
    obtain ⟨mem, disk⟩ := st0
    cases mem with
    | none =>
      have hd : disk = none := ih.1 rfl
      subst hd
      exact ih
    | some l =>
      simp only [setGoalS, getLedgerLoad]
      exact LedgerInv_save _ _ (ih.2 l rfl)
  | cleared st0 _ _ =>
    exact LedgerInv_absent

theorem addCompleted_moves (now : Clock) (task : String) (result : Option String)
    (l : ContinuityLedger) (disk : Option ContinuityLedger)
    (l' : ContinuityLedger)
    (hl' : (addCompletedTaskS now task result ⟨some l, disk⟩).mem = some l') :
    (∀ e ∈ l'.inProgress, lowerStr e.task ≠ lowerStr task) ∧
    (∃ e ∈ l'.completed, lowerStr e.task = lowerStr task) := by
  simp only [addCompletedTaskS, getLedgerLoad, saveLedgerAs,
    Option.some.injEq] at hl'
  subst hl'
  constructor
  · intro e he hEq
    rcases List.mem_filter.mp he with ⟨_, hfil⟩
    simp [hEq] at hfil
  · refine ⟨{ task := task, timestamp := now.ms, result := result }, ?_, rfl⟩
    simp

/-- C2 (amended): completing a task is atomic in every reachable ledger
state — after `completeTask t` (or `addCompletedTask t`) no in-progress
entry matches `t` case-insensitively and some completed entry does. The
spec's stronger claim that NO task text is ever in both lists fails,
because `addInProgressTask` checks only the in-progress list
(see the counterexample). -/
theorem C2_complete_moves_atomically (st : LedgerState)
    (hst : ReachableLedger st) (now : Clock) (task : String)
    (result : Option String) :
    (∀ l', (completeTaskS now task result st).mem = some l' →
       (∀ e ∈ l'.inProgress, lowerStr e.task ≠ lowerStr task) ∧
       (∃ e ∈ l'.completed, lowerStr e.task = lowerStr task)) ∧
    (∀ l', (addCompletedTaskS now task result st).mem = some l' →
       (∀ e ∈ l'.inProgress, lowerStr e.task ≠ lowerStr task) ∧
       (∃ e ∈ l'.completed, lowerStr e.task = lowerStr task)) := by
  have hinv := reachable_ledger_inv st hst
  obtain ⟨mem, disk⟩ := st
  cases mem with
  | none =>
    have hd : disk = none := hinv.1 rfl
    subst hd
    constructor <;> intro l' hl' <;>
      exact absurd hl'
        (by simp [completeTaskS, addCompletedTaskS, getLedgerLoad,
          absentLedgerState])
  | some l =>
    have hnd : (lowerTasks l.inProgress).Nodup := hinv.2 l rfl
    constructor
    · intro l' hl'
      rcases hE : extractFirst (fun t => lowerStr t.task == lowerStr task)
          l.inProgress with _ | ⟨ct, rest⟩
      · simp only [completeTaskS, getLedgerLoad, hE] at hl'
        exact addCompleted_moves now task result l disk l' hl'
      · simp only [completeTaskS, getLedgerLoad, hE, saveLedgerAs,
          Option.some.injEq] at hl'
        subst hl'
        constructor
        · intro e he
          exact extractFirst_no_more (fun t : SessionTask => lowerStr t.task)
            (lowerStr task) l.inProgress ct rest hnd hE e he
        · refine ⟨{ ct with result := jsOrStr result ct.result, timestamp := now.ms }, ?_, ?_⟩
          · simp
          · exact beq_iff_eq.mp
              (extractFirst_found _ l.inProgress ct rest hE)
    · intro l' hl'
      exact addCompleted_moves now task result l disk l' hl'

/-- Witness for the amended C2 at a concrete reachable state: one task "x"
in progress, then `completeTask "X"`. -/
theorem C2_complete_moves_atomically_witness :
    ReachableLedger (addInProgressTaskS ⟨1, "d", "m"⟩ "x"
      (initLedgerS "b" "B" none ⟨0, "d", "m"⟩ absentLedgerState)) ∧
    ((∀ l', (completeTaskS ⟨2, "d", "m"⟩ "X" (some "done")
        (addInProgressTaskS ⟨1, "d", "m"⟩ "x"
          (initLedgerS "b" "B" none ⟨0, "d", "m"⟩ absentLedgerState))).mem =
          some l' →
       (∀ e ∈ l'.inProgress, lowerStr e.task ≠ lowerStr "X") ∧
       (∃ e ∈ l'.completed, lowerStr e.task = lowerStr "X")) ∧
     (∀ l', (addCompletedTaskS ⟨2, "d", "m"⟩ "X" (some "done")
        (addInProgressTaskS ⟨1, "d", "m"⟩ "x"
          (initLedgerS "b" "B" none ⟨0, "d", "m"⟩ absentLedgerState))).mem =
          some l' →
       (∀ e ∈ l'.inProgress, lowerStr e.task ≠ lowerStr "X") ∧
       (∃ e ∈ l'.completed, lowerStr e.task = lowerStr "X"))) :=
  have hr : ReachableLedger (addInProgressTaskS ⟨1, "d", "m"⟩ "x"
      (initLedgerS "b" "B" none ⟨0, "d", "m"⟩ absentLedgerState)) :=
    ReachableLedger.inProgressAdd ⟨1, "d", "m"⟩ "x" _
      (ReachableLedger.init "b" "B" none ⟨0, "d", "m"⟩ absentLedgerState)
  ⟨hr, C2_complete_moves_atomically _ hr ⟨2, "d", "m"⟩ "X" (some "done")⟩

-- ============================================================
-- Archival memory (`memory.ts`)
-- ============================================================

/-- The closed learning type tag. -/
inductive LearningType where
  | what_worked | outcome | user_preference | rejected | pattern | mistake
deriving Repr, DecidableEq

/-- Confidence level of a learning. -/
inductive Confidence where
  | high | medium | low
deriving Repr, DecidableEq

/-- `Learning` from `types` (the `metrics` map is modelled as an association
list). -/
structure Learning where
  id : String
  brand : String
  date : String
  type : LearningType
  category : String
  content : String
  context : Option String
  confidence : Confidence
  metrics : Option (List (String × String))
deriving Repr, DecidableEq

/-- The numeric rank the comparator in `getRelevantLearnings` assigns to a
confidence level (`{ high: 0, medium: 1, low: 2 }`). -/
def confOrder : Confidence → Nat
  | .high => 0
  | .medium => 1
  | .low => 2

/-- Lexicographic character-list comparison modelling the string order that
JS `localeCompare` induces on `YYYY-MM-DD` date strings. -/
def lexLeChars : List Char → List Char → Bool
  | [], _ => true
  | _ :: _, [] => false
  | x :: xs, y :: ys =>
    if x.toNat < y.toNat then true
    else if y.toNat < x.toNat then false
    else lexLeChars xs ys

/-- String comparison used for the date-descending tiebreak. -/
def strLeB (a b : String) : Bool :=
  lexLeChars a.toList b.toList

theorem lexLeChars_total : ∀ a b, lexLeChars a b = true ∨ lexLeChars b a = true := by
  intro a
  induction a with
  | nil => intro b; exact Or.inl rfl
  | cons x xs ih =>
    intro b
    cases b with
    | nil => exact Or.inr rfl
    | cons y ys =>
      by_cases h1 : x.toNat < y.toNat
      · exact Or.inl (by simp [lexLeChars, h1])
      · by_cases h2 : y.toNat < x.toNat
        · exact Or.inr (by simp [lexLeChars, h2])
        · rcases ih ys with h | h
          · exact Or.inl (by simp [lexLeChars, h1, h2, h])
          · exact Or.inr (by simp [lexLeChars, h1, h2, h])

theorem lexLeChars_trans :
    ∀ a b c, lexLeChars a b = true → lexLeChars b c = true →
    lexLeChars a c = true := by
  intro a
  induction a with
  | nil => intro b c _ _; rfl
  | cons x xs ih =>
    intro b c hab hbc
    cases b with
    | nil => simp [lexLeChars] at hab
    | cons y ys =>
      cases c with
      | nil => simp [lexLeChars] at hbc
      | cons z zs =>
        by_cases hxz : x.toNat < z.toNat
        · simp [lexLeChars, hxz]
        · by_cases hzx : z.toNat < x.toNat
          · exfalso
            by_cases h1 : x.toNat < y.toNat
            · by_cases h3 : z.toNat < y.toNat
              · by_cases h2 : y.toNat < z.toNat
                · omega
                · simp [lexLeChars, h2, h3] at hbc
              · omega
            · by_cases h4 : y.toNat < x.toNat
              · simp [lexLeChars, h1, h4] at hab
              · by_cases h2 : y.toNat < z.toNat
                · omega
                · by_cases h3 : z.toNat < y.toNat
                  · simp [lexLeChars, h2, h3] at hbc
                  · omega
          · simp only [lexLeChars, if_neg hxz, if_neg hzx]
            by_cases h1 : x.toNat < y.toNat
            · exfalso
              have h2 : ¬(y.toNat < z.toNat) := by omega
              have h3 : z.toNat < y.toNat := by omega
              simp [lexLeChars, h2, h3] at hbc
            · by_cases h4 : y.toNat < x.toNat
              · simp [lexLeChars, h1, h4] at hab
              · have h5 : ¬(y.toNat < z.toNat) := by omega
                have h6 : ¬(z.toNat < y.toNat) := by omega
                simp only [lexLeChars, if_neg h1, if_neg h4] at hab
                simp only [lexLeChars, if_neg h5, if_neg h6] at hbc
                exact ih ys zs hab hbc

/-- The comparator of `getRelevantLearnings`'s final sort: high confidence
first (`confOrder` ascending), ties broken by date descending. -/
def learnLE (a b : Learning) : Prop :=
  confOrder a.confidence < confOrder b.confidence ∨
  (confOrder a.confidence = confOrder b.confidence ∧
   strLeB b.date a.date = true)

instance : DecidableRel learnLE := fun a b => by
  unfold learnLE
  infer_instance

instance : IsTotal Learning learnLE := ⟨by
  intro a b
  unfold learnLE
  rcases Nat.lt_trichotomy (confOrder a.confidence) (confOrder b.confidence)
    with h | h | h
  · exact Or.inl (Or.inl h)
  · rcases lexLeChars_total b.date.toList a.date.toList with hd | hd
    · exact Or.inl (Or.inr ⟨h, hd⟩)
    · exact Or.inr (Or.inr ⟨h.symm, hd⟩)
  · exact Or.inr (Or.inl h)⟩

instance : IsTrans Learning learnLE := ⟨by
  intro a b c hab hbc
  unfold learnLE at hab hbc ⊢
  rcases hab with h1 | ⟨h1, d1⟩ <;> rcases hbc with h2 | ⟨h2, d2⟩
  · exact Or.inl (h1.trans h2)
  · exact Or.inl (by omega)
  · exact Or.inl (by omega)
  · exact Or.inr ⟨h1.trans h2, lexLeChars_trans _ _ _ d2 d1⟩⟩

/-- `getBrandLearnings(brandId)`: brand-scoped plus global entries. -/
def getBrandLearnings (brandId : String) (learnings : List Learning) :
    List Learning :=
  learnings.filter (fun l => l.brand == brandId || l.brand == "global")

/-- The `seen` id set of `getRelevantLearnings`, maintained implicitly as
"ids already pushed onto the result". -/
def seenHas (acc : List Learning) (lid : String) : Bool :=
  acc.any (fun x => x.id == lid)

/-- The `for (const l of matches) if (!seen.has(l.id)) push` inner loop. -/
def addMatches (acc : List Learning) (ms : List Learning) : List Learning :=
  ms.foldl (fun acc l => if seenHas acc l.id then acc else acc ++ [l]) acc

/-- The query context of `getRelevantLearnings`. -/
structure RelContext where
  activity : Option String
  category : Option String
  keywords : Option (List String)

/-- The guard `!context.activity && !context.category &&
!context.keywords?.length`, negated (JS truthiness). -/
def memHasCriteria (ctx : RelContext) : Bool :=
  jsTruthyStr ctx.activity || jsTruthyStr ctx.category ||
  (match ctx.keywords with
   | some ks => !ks.isEmpty
   | none => false)

/-- The fixed activity→keyword-set mapping. -/
def activityMap (a : String) : List String :=
  if a == "keyword_research" then ["keywords", "seo", "search"]
  else if a == "content_planning" then ["content", "topics", "calendar"]
  else if a == "competitor_analysis" then ["competitor", "analysis", "comparison"]
  else if a == "strategy_creation" then ["strategy", "positioning", "channels"]
  else []

/-- "Match by category" block of `getRelevantLearnings`. -/
def categoryPass (brandLearnings : List Learning) (ctx : RelContext) :
    List Learning :=
  if jsTruthyStr ctx.category then
    addMatches [] (brandLearnings.filter (fun l =>
      jsIncludes (lowerStr l.category) (lowerStr (ctx.category.getD ""))))
  else []

/-- "Match by keywords" block of `getRelevantLearnings`. -/
def keywordPass (brandLearnings : List Learning) (ctx : RelContext)
    (acc : List Learning) : List Learning :=
  match ctx.keywords with
  | some ks =>
    if !ks.isEmpty then
      ks.foldl (fun acc kw => addMatches acc (brandLearnings.filter (fun l =>
        !(seenHas acc l.id) &&
        (jsIncludes (lowerStr l.content) (lowerStr kw) ||
         jsIncludes (lowerStr l.category) (lowerStr kw))))) acc
    else acc
  | none => acc

/-- "Match by activity type" block of `getRelevantLearnings` (the mapped
keywords are already lowercase and are not lowercased again). -/
def activityPass (brandLearnings : List Learning) (ctx : RelContext)
    (acc : List Learning) : List Learning :=
  if jsTruthyStr ctx.activity then
    (activityMap (ctx.activity.getD "")).foldl (fun acc kw =>
      addMatches acc (brandLearnings.filter (fun l =>
        !(seenHas acc l.id) &&
        (jsIncludes (lowerStr l.content) kw ||
         jsIncludes (lowerStr l.category) kw)))) acc
  else acc

/-- `getRelevantLearnings(brandId, context)`: with no criteria, the last
five brand-scoped entries in file order; otherwise the union of the three
match passes, deduplicated by id, sorted by the confidence-then-date
comparator (the JS `Array.prototype.sort` is modelled by insertion sort —
any sorted permutation). -/
def getRelevantLearnings (brandId : String) (ctx : RelContext)
    (learnings : List Learning) : List Learning :=
  let brandLearnings := getBrandLearnings brandId learnings
  if !(memHasCriteria ctx) then jsSliceLast 5 brandLearnings
  else
    List.insertionSort learnLE
      (activityPass brandLearnings ctx
        (keywordPass brandLearnings ctx (categoryPass brandLearnings ctx)))

/-- `promoteToGlobal(id)`: reassigns the first learning with the given id
to the global sentinel and saves; `none` when the id is absent. -/
def promoteToGlobal (learningId : String) (learnings : List Learning) :
    Option Learning × List Learning :=
  match updateFirst (fun l => l.id == learningId)
      (fun l => { l with brand := "global" }) learnings with
  | some (l, learnings') => (some l, learnings')
  | none => (none, learnings)

theorem addMatches_nodupIds :
    ∀ (ms acc : List Learning), (acc.map (fun l => l.id)).Nodup →
    ((addMatches acc ms).map (fun l => l.id)).Nodup := by
  intro ms
  induction ms with
  | nil => intro acc h; exact h
  | cons m ms ih =>
    intro acc h
    have hstep : addMatches acc (m :: ms) =
        addMatches (if seenHas acc m.id then acc else acc ++ [m]) ms := rfl
    rw [hstep]
    by_cases hs : seenHas acc m.id = true
    · rw [if_pos hs]
      exact ih acc h
    · rw [if_neg hs]
      refine ih (acc ++ [m]) ?_
      rw [List.map_append, List.map_singleton, List.nodup_append]
      refine ⟨h, List.nodup_singleton _, ?_⟩
      intro a ha hb
      simp only [List.mem_singleton] at hb
      subst hb
      apply hs
      unfold seenHas
      rw [List.any_eq_true]
      simp only [List.mem_map] at ha
      obtain ⟨x, hx, hxa⟩ := ha
      exact ⟨x, hx, by simp [hxa]⟩

theorem foldl_step_nodupIds {α : Type} (step : List Learning → α → List Learning)
    (hstep : ∀ acc x, (acc.map (fun l => l.id)).Nodup →
      ((step acc x).map (fun l => l.id)).Nodup) :
    ∀ (xs : List α) (acc : List Learning), (acc.map (fun l => l.id)).Nodup →
    ((xs.foldl step acc).map (fun l => l.id)).Nodup := by
  intro xs
  induction xs with
  | nil => intro acc h; exact h
  | cons x xs ih =>
    intro acc h
    rw [List.foldl_cons]
    exact ih (step acc x) (hstep acc x h)

theorem passes_nodupIds (bl : List Learning) (ctx : RelContext) :
    ((activityPass bl ctx (keywordPass bl ctx (categoryPass bl ctx))).map
      (fun l => l.id)).Nodup := by
  have h1 : ((categoryPass bl ctx).map (fun l => l.id)).Nodup := by
    unfold categoryPass
    by_cases hc : jsTruthyStr ctx.category = true
    · rw [if_pos hc]
      exact addMatches_nodupIds _ [] (by simp)
    · rw [if_neg hc]
      simp
  have h2 : ((keywordPass bl ctx (categoryPass bl ctx)).map
      (fun l => l.id)).Nodup := by
    unfold keywordPass
    rcases ctx.keywords with _ | ks
    · exact h1
    · dsimp only
      by_cases hk : (!ks.isEmpty) = true
      · rw [if_pos hk]
        exact foldl_step_nodupIds _ (fun acc kw h => addMatches_nodupIds _ acc h)
          ks _ h1
      · rw [if_neg hk]
        exact h1
  unfold activityPass
  by_cases ha : jsTruthyStr ctx.activity = true
  · rw [if_pos ha]
    exact foldl_step_nodupIds _ (fun acc kw h => addMatches_nodupIds _ acc h)
      _ _ h2
  · rw [if_neg ha]
    exact h2

/-- C6: whenever at least one of activity, category or keywords is supplied
(in the JS-truthy sense the code tests), `getRelevantLearnings` returns a
list with pairwise-distinct ids, sorted by confidence (high before medium
before low) and, within equal confidence, by date descending. -/
theorem C6_relevant_nodup_sorted (brandId : String) (ctx : RelContext)
    (learnings : List Learning) (hc : memHasCriteria ctx = true) :
    ((getRelevantLearnings brandId ctx learnings).map (fun l => l.id)).Nodup ∧
    (getRelevantLearnings brandId ctx learnings).Pairwise learnLE := by
  constructor
  · simp only [getRelevantLearnings, hc, Bool.not_true, Bool.false_eq_true,
      if_false]
    have hperm := (List.perm_insertionSort learnLE
      (activityPass (getBrandLearnings brandId learnings) ctx
        (keywordPass (getBrandLearnings brandId learnings) ctx
          (categoryPass (getBrandLearnings brandId learnings) ctx)))).map
      (fun l => l.id)
    exact hperm.nodup_iff.mpr
      (passes_nodupIds (getBrandLearnings brandId learnings) ctx)
  · simp only [getRelevantLearnings, hc, Bool.not_true, Bool.false_eq_true,
      if_false]
    exact List.sorted_insertionSort learnLE _

/-- Sample fixture: a high-confidence brand-scoped learning. -/
def sampleLearning : Learning :=
  { id := "learn-1", brand := "acme", date := "2026-01-02",
    type := .what_worked, category := "seo",
    content := "Long-tail keywords convert", context := none,
    confidence := .high, metrics := none }

/-- Sample fixture: a medium-confidence global learning. -/
def sampleLearningGlobal : Learning :=
  { id := "learn-2", brand := "global", date := "2026-01-03",
    type := .pattern, category := "seo strategy",
    content := "Refresh old posts", context := none,
    confidence := .medium, metrics := none }

/-- Witness for C6 with a category query over two stored learnings. -/
theorem C6_relevant_nodup_sorted_witness :
    memHasCriteria ⟨none, some "seo", none⟩ = true ∧
    (((getRelevantLearnings "acme" ⟨none, some "seo", none⟩
        [sampleLearning, sampleLearningGlobal]).map (fun l => l.id)).Nodup ∧
     (getRelevantLearnings "acme" ⟨none, some "seo", none⟩
        [sampleLearning, sampleLearningGlobal]).Pairwise learnLE) :=
  ⟨rfl, C6_relevant_nodup_sorted "acme" ⟨none, some "seo", none⟩
    [sampleLearning, sampleLearningGlobal] rfl⟩

theorem updateFirst_mem {α : Type} (p : α → Bool) (f : α → α) :
    ∀ (l : List α) (y : α) (l' : List α),
      updateFirst p f l = some (y, l') →
      y ∈ l' ∧ ∃ x, p x = true ∧ y = f x := by
  intro l
  induction l with
  | nil => intro y l' h; exact absurd h (by simp [updateFirst])
  | cons a as ih =>
    intro y l' h
    by_cases hpa : p a = true
    · rw [updateFirst, if_pos hpa] at h
      simp only [Option.some.injEq, Prod.mk.injEq] at h
      obtain ⟨rfl, rfl⟩ := h
      exact ⟨List.mem_cons_self _ _, a, hpa, rfl⟩
    · rw [updateFirst, if_neg hpa] at h
      rcases hE : updateFirst p f as with _ | ⟨z, zs⟩ <;> rw [hE] at h
      · exact absurd h (by simp)
      · simp only [Option.some.injEq, Prod.mk.injEq] at h
        obtain ⟨rfl, rfl⟩ := h
        obtain ⟨hz, x, hpx, hfx⟩ := ih z zs hE
        exact ⟨List.mem_cons_of_mem a hz, x, hpx, hfx⟩

-- ============================================================
-- C8: promoteToGlobal makes a learning globally visible
-- ============================================================

/-- C8: when `promoteToGlobal(id)` succeeds, the returned learning's brand
field is the global sentinel "global", and that learning is included in
`getBrandLearnings(b)` for every brand id `b` on the saved list. -/
theorem C8_promoteToGlobal (learningId : String) (learnings : List Learning)
    (l : Learning) (saved : List Learning)
    (h : promoteToGlobal learningId learnings = (some l, saved)) :
    l.brand = "global" ∧ ∀ b, l ∈ getBrandLearnings b saved := by
  unfold promoteToGlobal at h
  rcases hU : updateFirst (fun l => l.id == learningId)
      (fun l => { l with brand := "global" }) learnings with _ | ⟨y, ys⟩ <;>
    rw [hU] at h
  · exact absurd h (by simp)
  · simp only [Prod.mk.injEq, Option.some.injEq] at h
    obtain ⟨rfl, rfl⟩ := h
    obtain ⟨hy, x, _, rfl⟩ := updateFirst_mem _ _ learnings y ys hU
    refine ⟨rfl, ?_⟩
    intro b
    unfold getBrandLearnings
    rw [List.mem_filter]
    exact ⟨hy, by simp⟩

/-- Witness for C8 on a one-element learnings file. -/
theorem C8_promoteToGlobal_witness :
    promoteToGlobal "learn-1" [sampleLearning] =
      (some { sampleLearning with brand := "global" },
       [{ sampleLearning with brand := "global" }]) ∧
    (({ sampleLearning with brand := "global" } : Learning).brand = "global" ∧
     ∀ b, ({ sampleLearning with brand := "global" } : Learning) ∈
       getBrandLearnings b [{ sampleLearning with brand := "global" }]) :=
  ⟨rfl, C8_promoteToGlobal "learn-1" [sampleLearning]
    { sampleLearning with brand := "global" }
    [{ sampleLearning with brand := "global" }] rfl⟩

-- ============================================================
-- Brand registry (`input-parser.ts` CRUD + `storage.ts` generateId)
-- ============================================================

/-- `Brand.business` from `types`. -/
structure BusinessInfo where
  industry : String
  product : String
  model : String
  usp : String
deriving Repr, DecidableEq

/-- `Brand.audience.primary`. -/
structure AudiencePrimary where
  description : String
deriving Repr, DecidableEq

/-- `Brand.audience`. -/
structure Audience where
  primary : AudiencePrimary
  geo : List String
  painPoints : List String
deriving Repr, DecidableEq

/-- A competitor entry (`{ domain, name?, yourAngle? }`). -/
structure Competitor where
  domain : String
  name : Option String
  yourAngle : Option String
deriving Repr, DecidableEq

/-- A dated brand note (`{ date, content }`). -/
structure BrandNote where
  date : String
  content : String
deriving Repr, DecidableEq

/-- `BrandPreferences` (only the `dataMode` field is used by the embedded
operations). -/
structure BrandPreferences where
  dataMode : String
deriving Repr, DecidableEq

/-- `Brand` from `types`; the `accounts` and `currentInvestments` maps are
modelled as association lists. -/
structure Brand where
  id : String
  name : String
  website : String
  created : String
  lastUpdated : String
  lastSession : Option String
  business : BusinessInfo
  audience : Audience
  competitors : List Competitor
  accounts : List (String × String)
  currentInvestments : List (String × String)
  notes : List BrandNote
  preferences : BrandPreferences
deriving Repr, DecidableEq

/-- `Config` (only `activeBrand` is used by the embedded operations; the
`preferences`/`apis`/`ui` blocks are not touched by them). -/
structure Config where
  activeBrand : Option String
deriving Repr, DecidableEq

/-- `[a-z0-9]` test on an already-lowercased character. -/
def isLowerAlnum (c : Char) : Bool :=
  ('a'.toNat ≤ c.toNat && c.toNat ≤ 'z'.toNat) ||
  ('0'.toNat ≤ c.toNat && c.toNat ≤ '9'.toNat)

/-- `.replace(/[^a-z0-9]+/g, '-')`: each maximal run of non-alphanumeric
characters becomes a single hyphen; the flag records whether the previous
character was part of such a run. -/
def collapseRuns : Bool → List Char → List Char
  | _, [] => []
  | inRun, c :: cs =>
    if isLowerAlnum c then c :: collapseRuns false cs
    else if inRun then collapseRuns true cs
    else '-' :: collapseRuns true cs

/-- `.replace(/^-|-$/g, '')`: drop one leading and one trailing hyphen
(after run collapapsing at most one of each can exist). -/
def trimHyphens (cs : List Char) : List Char :=
  let cs1 := match cs with
    | '-' :: rest => rest
    | other => other
  match cs1.getLast? with
  | some '-' => cs1.dropLast
  | _ => cs1

/-- `generateId(name)` from `storage.ts`: lowercase, collapse runs of
non-alphanumerics to single hyphens, trim leading/trailing hyphens,
truncate to 50 characters. -/
def generateId (name : String) : String :=
  ((trimHyphens (collapseRuns false (name.toList.map Char.toLower))).take 50).asString

/-- `String.prototype.startsWith`, characterwise. -/
def strStartsWith (s pre : String) : Bool :=
  pre.toList.isPrefixOf s.toList

/-- `String.prototype.endsWith`, characterwise. -/
def strEndsWith (s suf : String) : Bool :=
  suf.toList.isSuffixOf s.toList

/-- Drop the first `n` characters. -/
def strDrop (s : String) (n : Nat) : String :=
  (s.toList.drop n).asString

/-- `.replace(/^https?:\/\//, '')`: drop one leading protocol prefix. -/
def stripProtocol (s : String) : String :=
  if strStartsWith s "https://" then strDrop s 8
  else if strStartsWith s "http://" then strDrop s 7
  else s

/-- `.replace(/\/$/, '')`: drop one trailing slash. -/
def stripTrailingSlash (s : String) : String :=
  if strEndsWith s "/" then (s.toList.take (s.toList.length - 1)).asString
  else s

/-- The website normalization `createBrand` applies before storing. -/
def normalizeWebsite (s : String) : String :=
  stripTrailingSlash (stripProtocol s)

example : generateId "My Brand!" = "my-brand" := by decide
example : generateId "  --Ärger__ GmbH  " = "rger-gmbh" := by decide
example : normalizeWebsite "https://example.com/" = "example.com" := by decide

-- ============================================================
-- History manager and the composite world state
-- ============================================================

/-- `ActionItem` from `types`. -/
structure ActionItem where
  id : String
  task : String
  status : String
  created : String
  completed : Option String
  outcome : Option String
  reason : Option String
deriving Repr, DecidableEq

/-- `Activity` from `types` (the type tag is kept as a string). -/
structure Activity where
  type : String
  timestamp : Nat
  inputMethod : Option String
  target : Option String
  outputSummary : Option String
  insights : List String
  actionItems : List ActionItem
deriving Repr, DecidableEq

/-- `Session` from `types` (one history entry). -/
structure Session where
  date : String
  brandId : String
  duration : Option String
  activities : List Activity
  notes : List String
deriving Repr, DecidableEq

/-- One month-bucketed history file. -/
structure HistoryFile where
  brandId : String
  yearMonth : String
  sessions : List Session
deriving Repr, DecidableEq

/-- The session manager's module-level `sessionState`. -/
structure SessionState where
  brand : Option Brand
  ledger : Option ContinuityLedger
  handoff : Option Handoff
  isActive : Bool
  startTime : Option Nat
deriving Repr, DecidableEq

/-- The composite persistent-plus-module state the session coordinator
orchestrates: brand records, the config record, the continuity-ledger
module state, the handoff store, the history manager's `currentSession`
and month-bucketed files, and the coordinator's own `sessionState`. -/
structure World where
  brands : String → Option Brand
  config : Option Config
  ledger : LedgerState
  handoffs : HandoffStore
  histCurrent : Option Session
  histFiles : String → String → Option HistoryFile
  session : SessionState

/-- The reset `sessionState`. -/
def inactiveSession : SessionState :=
  { brand := none, ledger := none, handoff := none, isActive := false,
    startTime := none }

/-- A world with no records at all. -/
def emptyWorld : World :=
  { brands := fun _ => none, config := none, ledger := absentLedgerState,
    handoffs := fun _ => none, histCurrent := none,
    histFiles := fun _ _ => none, session := inactiveSession }

/-- `getBrand(brandId)`. -/
def getBrandW (brandId : String) (w : World) : Option Brand :=
  w.brands brandId

/-- A `Partial<Brand>` update payload: a present field overrides. -/
structure BrandPatch where
  id : Option String
  name : Option String
  website : Option String
  created : Option String
  lastUpdated : Option String
  lastSession : Option (Option String)
  business : Option BusinessInfo
  audience : Option Audience
  competitors : Option (List Competitor)
  accounts : Option (List (String × String))
  currentInvestments : Option (List (String × String))
  notes : Option (List BrandNote)
  preferences : Option BrandPreferences
deriving Repr, DecidableEq

/-- The all-absent update payload. -/
def emptyPatch : BrandPatch :=
  { id := none, name := none, website := none, created := none,
    lastUpdated := none, lastSession := none, business := none,
    audience := none, competitors := none, accounts := none,
    currentInvestments := none, notes := none, preferences := none }

/-- The object spread `{ ...brand, ...updates }`. -/
def mergeBrand (b : Brand) (u : BrandPatch) : Brand :=
  { id := u.id.getD b.id,
    name := u.name.getD b.name,
    website := u.website.getD b.website,
    created := u.created.getD b.created,
    lastUpdated := u.lastUpdated.getD b.lastUpdated,
    lastSession := u.lastSession.getD b.lastSession,
    business := u.business.getD b.business,
    audience := u.audience.getD b.audience,
    competitors := u.competitors.getD b.competitors,
    accounts := u.accounts.getD b.accounts,
    currentInvestments := u.currentInvestments.getD b.currentInvestments,
    notes := u.notes.getD b.notes,
    preferences := u.preferences.getD b.preferences }

/-- `updateBrand(brandId, updates)`: spread merge, then force `id` and
`created` back to the stored values and refresh `lastUpdated`. -/
def updateBrandW (brandId : String) (u : BrandPatch) (now : Clock)
    (w : World) : Except String (Brand × World) :=
  match w.brands brandId with
  | none => Except.error ("Brand \"" ++ brandId ++ "\" not found")
  | some brand =>
    let updatedBrand := { mergeBrand brand u with
      id := brand.id, created := brand.created, lastUpdated := now.date }
    Except.ok (updatedBrand,
      { w with brands := updStore w.brands brandId (some updatedBrand) })

/-- `setActiveBrand(brandId)`: writes the config and, for a truthy id whose
brand exists, stamps that brand's `lastSession` via `updateBrand` (which
cannot fail there, the existence check just preceded it). -/
def setActiveBrandW (brandId : Option String) (now : Clock) (w : World) :
    World :=
  let config := w.config.getD { activeBrand := none }
  let config := { config with activeBrand := brandId }
  let w1 := { w with config := some config }
  if jsTruthyStr brandId then
    match w1.brands (brandId.getD "") with
    | some _ =>
      match updateBrandW (brandId.getD "")
          { emptyPatch with lastSession := some (some now.date) } now w1 with
      | Except.ok (_, w2) => w2
      | Except.error _ => w1
    | none => w1
  else w1

/-- `createBrand(data)`'s required-plus-optional input payload. -/
structure CreateBrandData where
  name : String
  website : String
  business : Option BusinessInfo
  audience : Option Audience
  competitors : Option (List Competitor)
  accounts : Option (List (String × String))
  currentInvestments : Option (List (String × String))
  notes : Option (List BrandNote)
  preferences : Option BrandPreferences
deriving Repr, DecidableEq

/-- `createBrand(data)`: derives the slug id, fails on collision, writes the
record with a normalized website, then sets the brand active. -/
def createBrandW (data : CreateBrandData) (now : Clock) (w : World) :
    Except String (Brand × World) :=
  let id := generateId data.name
  if (w.brands id).isSome then
    Except.error ("Brand with ID \"" ++ id ++ "\" already exists")
  else
    let brand : Brand :=
      { id := id, name := data.name,
        website := normalizeWebsite data.website,
        created := now.date, lastUpdated := now.date, lastSession := none,
        business := data.business.getD
          { industry := "", product := "", model := "", usp := "" },
        audience := data.audience.getD
          { primary := { description := "" }, geo := [], painPoints := [] },
        competitors := data.competitors.getD [],
        accounts := data.accounts.getD [],
        currentInvestments := data.currentInvestments.getD [],
        notes := data.notes.getD [],
        preferences := data.preferences.getD { dataMode := "ask" } }
    let w1 := { w with brands := updStore w.brands id (some brand) }
    let w2 := setActiveBrandW (some id) now w1
    Except.ok (brand, w2)

-- ============================================================
-- C7: updateBrand preserves id and created
-- ============================================================

/-- C7: for every existing brand and every update payload — including one
that sets different `id` or `created` values — `updateBrand` succeeds and
the stored result keeps the pre-update `id` and `created`. -/
theorem C7_updateBrand_preserves_id_created (w : World) (brandId : String)
    (b : Brand) (u : BrandPatch) (now : Clock)
    (hb : w.brands brandId = some b) :
    ∃ b' w', updateBrandW brandId u now w = Except.ok (b', w') ∧
      b'.id = b.id ∧ b'.created = b.created ∧
      w'.brands brandId = some b' := by
  have hr : updateBrandW brandId u now w = Except.ok
      ({ mergeBrand b u with id := b.id, created := b.created, lastUpdated := now.date },
       { w with brands := updStore w.brands brandId (some { mergeBrand b u with id := b.id, created := b.created, lastUpdated := now.date }) }) := by
    unfold updateBrandW
    rw [hb]
  exact ⟨_, _, hr, rfl, rfl, by simp [updStore]⟩

/-- Sample fixture: a stored brand record. -/
def sampleBrand : Brand :=
  { id := "acme", name := "Acme", website := "acme.com",
    created := "2026-01-01", lastUpdated := "2026-01-01",
    lastSession := none,
    business := { industry := "", product := "", model := "", usp := "" },
    audience := { primary := { description := "" }, geo := [],
                  painPoints := [] },
    competitors := [], accounts := [], currentInvestments := [],
    notes := [], preferences := { dataMode := "ask" } }

/-- Sample fixture: a world storing only `sampleBrand`. -/
def sampleBrandWorld : World :=
  { emptyWorld with brands := updStore (fun _ => none) "acme" (some sampleBrand) }

/-- Witness for C7: a payload that tries to overwrite `id` and `created`
on a stored brand. -/
theorem C7_updateBrand_preserves_id_created_witness :
    sampleBrandWorld.brands "acme" = some sampleBrand ∧
    ∃ b' w', updateBrandW "acme"
        { emptyPatch with id := some "evil", created := some "1999-12-31" }
        ⟨0, "2026-02-02", "2026-02"⟩ sampleBrandWorld =
        Except.ok (b', w') ∧
      b'.id = sampleBrand.id ∧ b'.created = sampleBrand.created ∧
      w'.brands "acme" = some b' :=
  ⟨rfl, C7_updateBrand_preserves_id_created sampleBrandWorld "acme" sampleBrand
    { emptyPatch with id := some "evil", created := some "1999-12-31" }
    ⟨0, "2026-02-02", "2026-02"⟩ rfl⟩

-- ============================================================
-- C3: createBrand / getBrand round trip
-- ============================================================

/-- C3 counterexample: `createBrand` stores a *normalized* website, not the
input website — for input "https://example.com/" the stored record's
website is "example.com", which differs from the input. -/
theorem C3_counterexample :
    (match createBrandW
        { name := "My Brand", website := "https://example.com/",
          business := none, audience := none, competitors := none,
          accounts := none, currentInvestments := none, notes := none,
          preferences := none } ⟨0, "2026-01-01", "2026-01"⟩ emptyWorld with
     | Except.ok (_, w') => (w'.brands "my-brand").map (fun b => b.website)
     | Except.error _ => none) = some "example.com" ∧
    ("example.com" : String) ≠ "https://example.com/" :=
  ⟨rfl, by decide⟩

/-- C3 (amended): for a fresh brand name, `createBrand` followed by
`getBrand` on the derived id returns a record whose `name` equals the
input, whose `website` equals the input with one leading `http://` or
`https://` prefix and one trailing slash removed, and whose `id` equals
`generateId` of the name (lowercase, non-alphanumeric runs to single
hyphens, trimmed, truncated to 50). -/
theorem C3_createBrand_roundtrip (w : World) (data : CreateBrandData)
    (now : Clock) (hfree : w.brands (generateId data.name) = none) :
    ∃ b w', createBrandW data now w = Except.ok (b, w') ∧
      ∃ stored, getBrandW (generateId data.name) w' = some stored ∧
        stored.name = data.name ∧
        stored.website = normalizeWebsite data.website ∧
        stored.id = generateId data.name := by
  have hfree' : (w.brands (generateId data.name)).isSome = false := by
    rw [hfree]
    rfl
  simp only [createBrandW, hfree', Bool.false_eq_true, if_false]
  refine ⟨_, _, rfl, ?_⟩
  set brandRec : Brand :=
    { id := generateId data.name, name := data.name,
      website := normalizeWebsite data.website, created := now.date,
      lastUpdated := now.date, lastSession := none,
      business := data.business.getD
        { industry := "", product := "", model := "", usp := "" },
      audience := data.audience.getD
        { primary := { description := "" }, geo := [], painPoints := [] },
      competitors := data.competitors.getD [],
      accounts := data.accounts.getD [],
      currentInvestments := data.currentInvestments.getD [],
      notes := data.notes.getD [],
      preferences := data.preferences.getD { dataMode := "ask" } }
    with hbrandRec
  by_cases hid0 : generateId data.name = ""
  · have htr : jsTruthyStr (some (generateId data.name)) = false := by
      simp [jsTruthyStr, hid0]
    simp only [setActiveBrandW, htr, Bool.false_eq_true, if_false]
    refine ⟨brandRec, ?_, rfl, rfl, rfl⟩
    simp [getBrandW, updStore]
  · have htr : jsTruthyStr (some (generateId data.name)) = true := by
      simp [jsTruthyStr, hid0]
    have hlk : updStore w.brands (generateId data.name) (some brandRec)
        (generateId data.name) = some brandRec := by
      simp [updStore]
    simp only [setActiveBrandW, htr, if_true, Option.getD_some, hlk,
      updateBrandW]
    refine ⟨{ mergeBrand brandRec { emptyPatch with lastSession := some (some now.date) } with id := brandRec.id, created := brandRec.created, lastUpdated := now.date }, ?_, rfl, rfl, rfl⟩
    simp [getBrandW, updStore]

/-- Witness for C3 (amended) on a fresh store. -/
theorem C3_createBrand_roundtrip_witness :
    emptyWorld.brands (generateId "My Brand") = none ∧
    (∃ b w', createBrandW
        { name := "My Brand", website := "https://example.com/",
          business := none, audience := none, competitors := none,
          accounts := none, currentInvestments := none, notes := none,
          preferences := none } ⟨0, "2026-01-01", "2026-01"⟩ emptyWorld =
        Except.ok (b, w') ∧
      ∃ stored, getBrandW (generateId "My Brand") w' = some stored ∧
        stored.name = "My Brand" ∧
        stored.website = normalizeWebsite "https://example.com/" ∧
        stored.id = generateId "My Brand") :=
  ⟨rfl, C3_createBrand_roundtrip emptyWorld
    { name := "My Brand", website := "https://example.com/",
      business := none, audience := none, competitors := none,
      accounts := none, currentInvestments := none, notes := none,
      preferences := none } ⟨0, "2026-01-01", "2026-01"⟩ rfl⟩

-- ============================================================
-- Session coordinator (`session-manager.ts`, history manager)
-- ============================================================

/-- Two-key store update (brand id, year-month). -/
def updStore2 {β : Type} (st : String → String → Option β) (k1 k2 : String)
    (v : Option β) : String → String → Option β :=
  fun a b => if a = k1 ∧ b = k2 then v else st a b

/-- `startSession(brandId)` from the history manager: installs a fresh
`currentSession`. -/
def startSessionH (brandId : String) (now : Clock) (w : World) : World :=
  { w with histCurrent := some { date := now.date, brandId := brandId, duration := none, activities := [], notes := [] } }

/-- `saveSessionToHistory(session)`: appends to the month-bucketed file,
creating it when absent. -/
def saveSessionToHistory (s : Session) (now : Clock) (w : World) : World :=
  let yearMonth := now.ym
  let history := (w.histFiles s.brandId yearMonth).getD
    { brandId := s.brandId, yearMonth := yearMonth, sessions := [] }
  let history := { history with sessions := history.sessions ++ [s] }
  { w with histFiles := updStore2 w.histFiles s.brandId yearMonth (some history) }

/-- `endSession(duration?)`: stamps the duration when truthy, persists the
session, clears `currentSession`. -/
def endSessionH (duration : Option String) (now : Clock) (w : World) :
    Option Session × World :=
  match w.histCurrent with
  | none => (none, w)
  | some s =>
    let s := if jsTruthyStr duration then { s with duration := duration } else s
    let w := saveSessionToHistory s now w
    (some s, { w with histCurrent := none })

/-- Result of `beginSession`. -/
structure BeginResult where
  success : Bool
  message : String
  resumeContext : Option String
deriving Repr, DecidableEq

/-- Result of `finishSession`. -/
structure FinishResult where
  success : Bool
  message : String
  summary : Option String
deriving Repr, DecidableEq

/-- Options of `finishSession`. -/
structure FinishOptions where
  createHandoff : Option Bool
  nextSteps : Option (List PrioritizedTask)
deriving Repr, DecidableEq

/-- `beginSession(brandId, goal?)`: resolves the brand, sets it active,
initializes the continuity ledger, opens a history session, captures (but
does not clear) a pending handoff for display, and installs the new
`sessionState`. When no handoff is pending, the previous `sessionState`'s
captured handoff is carried over unchanged (the source reuses the stale
field). -/
def beginSession (brandId : String) (goal : Option String) (now : Clock)
    (w : World) : BeginResult × World :=
  match getBrandW brandId w with
  | none =>
    ({ success := false, message := "Brand \"" ++ brandId ++ "\" not found",
       resumeContext := none }, w)
  | some brand =>
    let w := setActiveBrandW (some brandId) now w
    let w := { w with ledger := initLedgerS brandId brand.name goal now w.ledger }
    let w := startSessionH brandId now w
    let loaded : Option Handoff :=
      if hasHandoffS brandId w.handoffs then getHandoffS brandId w.handoffs
      else none
    let resumeContext := loaded.map formatHandoffDisplay
    let captured := match loaded with
      | some h => some h
      | none => w.session.handoff
    let w := { w with session :=
        { brand := some brand, ledger := ledgerView w.ledger,
          handoff := captured, isActive := true, startTime := some now.ms } }
    ({ success := true, message := "Session started for " ++ brand.name,
       resumeContext := resumeContext }, w)

/-- `finishSession(options?)`: computes the duration, snapshots the session
summary, creates a handoff unless `createHandoff` is explicitly false, ends
the history session, clears the continuity ledger, clears the brand's
handoff record when one had been captured at begin-time, and resets
`sessionState`. -/
def finishSession (opts : FinishOptions) (now : Clock) (w : World) :
    FinishResult × World :=
  match w.session.isActive, w.session.brand with
  | true, some brand =>
    let brandId := brand.id
    let duration := w.session.startTime.map
      (fun startMs => durationString (now.ms - startMs))
    let summaryStep := getSessionSummaryS now w.ledger
    let w := { w with ledger := summaryStep.1 }
    let summary := summaryStep.2
    let w :=
      if opts.createHandoff == some false then w
      else
        let r := createHandoffS opts.nextSteps none now w.ledger w.handoffs
        { w with ledger := r.2.1, handoffs := r.2.2 }
    let w := (endSessionH duration now w).2
    let w := { w with ledger := clearLedgerS w.ledger }
    let w :=
      if w.session.handoff.isSome then
        { w with handoffs := clearHandoffS brandId w.handoffs }
      else w
    let summaryText := "Session ended for " ++ brandId ++
      (match summary with
       | some s =>
         "\nDuration: " ++ s.duration ++
         "\nCompleted: " ++ toString s.completed ++ " tasks" ++
         (if s.inProgress > 0 then
           "\nIn progress: " ++ toString s.inProgress ++ " tasks"
          else "")
       | none => "")
    let w := { w with session := inactiveSession }
    ({ success := true, message := "Session ended successfully",
       summary := some summaryText }, w)
  | _, _ =>
    ({ success := false, message := "No active session", summary := none }, w)

-- ============================================================
-- C1: the end-of-session handoff clear
-- ============================================================

/-- Scenario input for C1: one brand, created at time 0. -/
def c1Data : CreateBrandData :=
  { name := "Acme", website := "acme.com", business := none,
    audience := none, competitors := none, accounts := none,
    currentInvestments := none, notes := none, preferences := none }

/-- World after `createBrand` ("acme" stored and active). -/
def c1World1 : World :=
  match createBrandW c1Data ⟨0, "2026-01-01", "2026-01"⟩ emptyWorld with
  | Except.ok (_, w) => w
  | Except.error _ => emptyWorld

/-- World after the first `beginSession "acme"` (no handoff pending). -/
def c1World2 : World :=
  (beginSession "acme" none ⟨60000, "2026-01-01", "2026-01"⟩ c1World1).2

/-- World after the first `finishSession` (a handoff is written and, with
no begin-time handoff, survives). -/
def c1World3 : World :=
  (finishSession ⟨none, none⟩ ⟨120000, "2026-01-01", "2026-01"⟩ c1World2).2

/-- World after the second `beginSession "acme"` (the stored handoff is
captured for display and left in the store). -/
def c1World4 : World :=
  (beginSession "acme" none ⟨180000, "2026-01-01", "2026-01"⟩ c1World3).2

/-- World after the second `finishSession`. -/
def c1World5 : World :=
  (finishSession ⟨none, none⟩ ⟨240000, "2026-01-01", "2026-01"⟩ c1World4).2

/-- C1 evaluated at the failing scenario: after the first session a handoff
for "acme" exists; the second session captures it at begin; ending the
second session with `createHandoff` at its default builds a new handoff
(third conjunct) and then `clearHandoff(brandId)` deletes that same
freshly-written record, so the store holds NO handoff afterwards (final
conjunct) — the begin-time handoff's clear is not harmless, and the newly
built handoff does not survive. -/
theorem C1_finishSession_deletes_new_handoff :
    (c1World3.handoffs "acme").isSome = true ∧
    c1World4.session.handoff.isSome = true ∧
    (createHandoffS none none ⟨240000, "2026-01-01", "2026-01"⟩
      c1World4.ledger c1World4.handoffs).1.isSome = true ∧
    c1World5.handoffs "acme" = none :=
  ⟨rfl, rfl, rfl, rfl⟩
